import Mathlib

/-!
Shallow embedding of the `country-boundaries` reverse geocoder
(`src/lib.rs`, `src/cell/multipolygon.rs`) and proofs about it.

Machine integers are modelled as `ℕ` / `Fin 65536` / `ℤ` (with explicit
wrapping where overflow matters); the `f64` coordinate arithmetic is
modelled over `ℚ`; Rust's saturating `as u16` / `as usize` casts and
saturating subtraction are modelled explicitly.
-/

/-- Local coordinate inside one raster cell, from `cell/point.rs`
(declaration not in the sources; the field layout `x, y : u16` is fixed by
its uses in `cell/multipolygon.rs` and `lib.rs`). A `u16` is `Fin 65536`. -/
structure Point where
  x : Fin 65536
  y : Fin 65536
deriving DecidableEq, Repr

instance : Inhabited Point := ⟨⟨0, 0⟩⟩

/-- Exact integer value of the cross product from `is_left` in
`cell/multipolygon.rs`: `(p1.x - p0.x) * (p.y - p0.y) - (p.x - p0.x) * (p1.y - p0.y)`,
all four coordinates first widened from `u16` to a signed integer. -/
def is_left (p0 p1 p : Point) : ℤ :=
  ((p1.x.val : ℤ) - (p0.x.val : ℤ)) * ((p.y.val : ℤ) - (p0.y.val : ℤ))
    - ((p.x.val : ℤ) - (p0.x.val : ℤ)) * ((p1.y.val : ℤ) - (p0.y.val : ℤ))

/-- Two's-complement wraparound of a mathematical integer into the `i64`
range `[-2^63, 2^63)`. -/
def wrap64 (z : ℤ) : ℤ :=
  (z + 2 ^ 63) % 2 ^ 64 - 2 ^ 63

/-- `is_left` as the machine computes it: every `i64` operation of
`cell/multipolygon.rs` wraps into the 64-bit signed range (the `u16 → i64`
casts themselves are exact). -/
def is_left_i64 (p0 p1 p : Point) : ℤ :=
  wrap64
    (wrap64 (wrap64 ((p1.x.val : ℤ) - (p0.x.val : ℤ)) * wrap64 ((p.y.val : ℤ) - (p0.y.val : ℤ)))
      - wrap64 (wrap64 ((p.x.val : ℤ) - (p0.x.val : ℤ)) * wrap64 ((p1.y.val : ℤ) - (p0.y.val : ℤ))))

/-- One iteration of the edge loop of `is_point_in_polygon`
(`cell/multipolygon.rs`): the edge goes from vertex `vi` to vertex `vj`;
`wn` is the running winding number. -/
def windStep (p vi vj : Point) (wn : ℤ) : ℤ :=
  if vi.y ≤ p.y then
    if p.y < vj.y then
      if 0 < is_left vi vj p then wn + 1 else wn
    else wn
  else
    if vj.y ≤ p.y then
      if is_left vi vj p < 0 then wn - 1 else wn
    else wn

/-- `is_point_in_polygon` from `cell/multipolygon.rs`: winding number over
the directed edges `v[i] → v[j]`, where `j` runs over `0 .. v.len()` and
`i` is the cyclic predecessor of `j` (initially `v.len() - 1`, then the
previous `j`); the point is inside iff the winding number is nonzero. -/
def is_point_in_polygon (p : Point) (v : List Point) : Bool :=
  let n := v.length
  let wn := (List.range n).foldl
    (fun wn j =>
      let i := if j = 0 then n - 1 else j - 1
      windStep p (v.getD i default) (v.getD j default) wn)
    0
  wn ≠ 0

/-- `Multipolygon` from `cell/multipolygon.rs`: outer rings and inner
(hole) rings. -/
structure Multipolygon where
  outer : List (List Point)
  inner : List (List Point)
deriving DecidableEq, Repr

/-- `Multipolygon::covers` from `cell/multipolygon.rs`: start from 0, add 1
for every outer ring containing the point, subtract 1 for every inner ring
containing the point, and report whether the total is positive. -/
def Multipolygon.covers (mp : Multipolygon) (p : Point) : Bool :=
  let insides : ℤ := mp.outer.foldl
    (fun acc area => if is_point_in_polygon p area then acc + 1 else acc) 0
  let insides : ℤ := mp.inner.foldl
    (fun acc area => if is_point_in_polygon p area then acc - 1 else acc) insides
  0 < insides

/-- `Cell` from `cell/mod.rs` (declaration not in the sources; the two
fields are fixed by the constructor uses in the tests of `lib.rs`, and the
boundary-entry type `(id, Multipolygon)` by the spec, section 3). -/
structure Cell where
  containing_ids : List String
  intersecting_areas : List (String × Multipolygon)
deriving DecidableEq, Repr

instance : Inhabited Cell := ⟨⟨[], []⟩⟩

/-- Modelled from the spec: `Cell::is_in` (its source `cell/mod.rs` is not
in the sources). Section 4.3: true if `id ∈ containing_ids`; else, if the
cell has a `(id, Multipolygon)` entry, delegate to `covers(point)`; else
false. -/
def Cell.is_in (c : Cell) (point : Point) (id : String) : Bool :=
  c.containing_ids.contains id
    || c.intersecting_areas.any (fun e => e.1 == id && e.2.covers point)

/-- Modelled from the spec: `Cell::is_in_any` (its source `cell/mod.rs` is
not in the sources). Section 4.3: true iff some id of the query set
satisfies `is_in`. -/
def Cell.is_in_any (c : Cell) (point : Point) (ids : List String) : Bool :=
  ids.any (fun id => c.is_in point id)

/-- Modelled from the spec: `Cell::get_ids` (its source `cell/mod.rs` is
not in the sources). Section 4.3: `containing_ids` plus every boundary id
whose polygon covers the point. -/
def Cell.get_ids (c : Cell) (point : Point) : List String :=
  c.containing_ids ++ (c.intersecting_areas.filter (fun e => e.2.covers point)).map (·.1)

/-- Modelled from the spec: `Cell::get_all_ids` (its source `cell/mod.rs`
is not in the sources). Section 4.3: `containing_ids` plus every boundary
id in the cell, ignoring point coverage. -/
def Cell.get_all_ids (c : Cell) : List String :=
  c.containing_ids ++ c.intersecting_areas.map (·.1)

/-- Modelled from the spec: the validated coordinate type `LatLon` from
`latlon.rs` (not in the sources; an external collaborator holding a
latitude and a longitude, range checks only). `f64` is modelled by `ℚ`. -/
structure LatLon where
  latitude : ℚ
  longitude : ℚ

/-- Modelled from the spec: the validated `BoundingBox` from `bbox.rs`
(not in the sources; an external collaborator holding min/max latitude and
longitude; min longitude above max longitude encodes antimeridian wrap). -/
structure BoundingBox where
  min_latitude : ℚ
  min_longitude : ℚ
  max_latitude : ℚ
  max_longitude : ℚ

/-- `CountryBoundaries` from `lib.rs`: the raster of cells, its width and
the id → area size table (a `HashMap<String, f64>`, modelled as an
association list over `ℚ`). -/
structure CountryBoundaries where
  raster : List Cell
  raster_width : ℕ
  geometry_sizes : List (String × ℚ)

/-- Rust's `%` on `f64` (remainder with the dividend's sign, i.e. the
remainder of the division truncated toward zero), over `ℚ`. -/
def rustRem (a b : ℚ) : ℚ :=
  a - b * (if a / b < 0 then ⌈a / b⌉ else ⌊a / b⌋ : ℤ)

/-- `normalize` from `lib.rs` (renamed here because Mathlib already owns
the name `normalize`): fold `value` into `[start_at, start_at + base)`. -/
def normalizeWrap (value start_at base : ℚ) : ℚ :=
  let value := rustRem value base
  if value < start_at then value + base
  else if start_at + base ≤ value then value - base
  else value

/-- Rust's `.floor() as usize` on a nonnegative-saturating cast: negative
values go to 0 (the only saturation reachable from the callers below). -/
def floorToUsize (q : ℚ) : ℕ :=
  ⌊q⌋.toNat

/-- Rust's `.ceil() as usize`, saturating below at 0. -/
def ceilToUsize (q : ℚ) : ℕ :=
  ⌈q⌉.toNat

/-- Rust's `.floor() as u16`, saturating at 0 and 0xffff. -/
def floorToU16 (q : ℚ) : Fin 65536 :=
  ⟨min 65535 ⌊q⌋.toNat, by omega⟩

/-- `CountryBoundaries::longitude_to_cell_x` from `lib.rs`:
`min(width - 1, floor(width * (180 + lon) / 360))`, with the subtraction
and the cast saturating. -/
def CountryBoundaries.longitude_to_cell_x (b : CountryBoundaries) (longitude : ℚ) : ℕ :=
  min (b.raster_width - 1)
    (floorToUsize ((b.raster_width : ℚ) * (180 + longitude) / 360))

/-- `CountryBoundaries::latitude_to_cell_y` from `lib.rs`:
`ceil(height * (90 - lat) / 180) - 1` with the height recomputed as
`raster.len() / raster_width` in floating point and the trailing
subtraction saturating at 0. -/
def CountryBoundaries.latitude_to_cell_y (b : CountryBoundaries) (latitude : ℚ) : ℕ :=
  let raster_height : ℚ := (b.raster.length : ℚ) / (b.raster_width : ℚ)
  ceilToUsize (raster_height * (90 - latitude) / 180) - 1

/-- `CountryBoundaries::longitude_to_local_x` from `lib.rs`: with
`cell_longitude = -180 + 360 * cell_x / width`, the value
`(longitude - cell_longitude) * 0xffff * 360 / width`, floored and cast to
`u16`. -/
def CountryBoundaries.longitude_to_local_x (b : CountryBoundaries) (cell_x : ℕ) (longitude : ℚ) : Fin 65536 :=
  let raster_width : ℚ := (b.raster_width : ℚ)
  let cell_longitude : ℚ := -180 + 360 * (cell_x : ℚ) / raster_width
  floorToU16 ((longitude - cell_longitude) * 65535 * 360 / raster_width)

/-- `CountryBoundaries::latitude_to_local_y` from `lib.rs`: with
`cell_latitude = 90 - 180 * (cell_y + 1) / height`, the value
`(latitude - cell_latitude) * 0xffff * 180 / height`, floored and cast to
`u16`. -/
def CountryBoundaries.latitude_to_local_y (b : CountryBoundaries) (cell_y : ℕ) (latitude : ℚ) : Fin 65536 :=
  let raster_width : ℚ := (b.raster_width : ℚ)
  let raster_height : ℚ := (b.raster.length : ℚ) / raster_width
  let cell_latitude : ℚ := 90 - 180 * ((cell_y : ℚ) + 1) / raster_height
  floorToU16 ((latitude - cell_latitude) * 65535 * 180 / raster_height)

/-- `CountryBoundaries::cell` from `lib.rs`: the raster cell at
`raster[y * raster_width + x]` (the Rust indexing would panic out of
bounds; `getD` with a default stands in for the in-bounds access). -/
def CountryBoundaries.cell (b : CountryBoundaries) (x y : ℕ) : Cell :=
  b.raster.getD (y * b.raster_width + x) default

/-- `CountryBoundaries::cell_and_local_point` from `lib.rs`. -/
def CountryBoundaries.cell_and_local_point (b : CountryBoundaries) (position : LatLon) : Cell × Point :=
  let normalized_longitude := normalizeWrap position.longitude (-180) 360
  let cell_x := b.longitude_to_cell_x normalized_longitude
  let cell_y := b.latitude_to_cell_y position.latitude
  (b.cell cell_x cell_y,
    ⟨b.longitude_to_local_x cell_x normalized_longitude,
     b.latitude_to_local_y cell_y position.latitude⟩)

/-- `CountryBoundaries::is_in` from `lib.rs`. -/
def CountryBoundaries.is_in (b : CountryBoundaries) (position : LatLon) (id : String) : Bool :=
  let (cell, point) := b.cell_and_local_point position
  cell.is_in point id

/-- `CountryBoundaries::is_in_any` from `lib.rs` (the `HashSet` of queried
ids is modelled as a list). -/
def CountryBoundaries.is_in_any (b : CountryBoundaries) (position : LatLon) (ids : List String) : Bool :=
  let (cell, point) := b.cell_and_local_point position
  cell.is_in_any point ids

/-- The sort key used by `CountryBoundaries::ids` in `lib.rs`: the size
from `geometry_sizes`, or `0.0` when the id is absent. -/
def lookupSize (sizes : List (String × ℚ)) (id : String) : ℚ :=
  match sizes.find? (fun e => e.1 == id) with
  | some e => e.2
  | none => 0

/-- `CountryBoundaries::ids` from `lib.rs`: resolve the cell's ids at the
local point, then sort ascending by `geometry_sizes` (default `0.0`).
Rust's `sort_by` is a stable sort; it is modelled by a stable
insertion sort over the same weak order. -/
def CountryBoundaries.ids (b : CountryBoundaries) (position : LatLon) : List String :=
  let (cell, point) := b.cell_and_local_point position
  (cell.get_ids point).insertionSort
    (fun a c => lookupSize b.geometry_sizes a ≤ lookupSize b.geometry_sizes c)

/-- The closure state of the `std::iter::from_fn` iterator inside
`CountryBoundaries::cells` (`lib.rs`): the two step counters. -/
structure IterState where
  x_step : ℕ
  y_step : ℕ
deriving DecidableEq, Repr

/-- The cell reference produced by the `from_fn` closure in
`CountryBoundaries::cells` for step counters `(x_step, y_step)`:
`raster[(min_y + y_step) * width + (min_x + x_step) % width]`. -/
def cellRefAt (b : CountryBoundaries) (min_x min_y x_step y_step : ℕ) : Cell :=
  b.raster.getD
    ((min_y + y_step) * b.raster_width + (min_x + x_step) % b.raster_width)
    default

/-- One call of the `from_fn` closure in `CountryBoundaries::cells`:
produce the cell at `(min_x + x_step) mod width, min_y + y_step` while
both counters are within their step bounds, then advance `y_step`
(resetting it and advancing `x_step` when the column is exhausted). -/
def cellsStep (b : CountryBoundaries) (min_x min_y steps_x steps_y : ℕ)
    (s : IterState) : Option Cell × IterState :=
  let result : Option Cell :=
    if s.x_step ≤ steps_x ∧ s.y_step ≤ steps_y then
      some (cellRefAt b min_x min_y s.x_step s.y_step)
    else none
  if s.y_step < steps_y then
    (result, ⟨s.x_step, s.y_step + 1⟩)
  else
    (result, ⟨s.x_step + 1, 0⟩)

/-- Driving the `from_fn` iterator: collect the produced cells until the
closure first returns `None` (or the fuel runs out; the caller passes
enough fuel for every cell the closure can produce). -/
def collectCells (b : CountryBoundaries) (min_x min_y steps_x steps_y : ℕ) :
    ℕ → IterState → List Cell
  | 0, _ => []
  | fuel + 1, s =>
    match cellsStep b min_x min_y steps_x steps_y s with
    | (none, _) => []
    | (some c, s') => c :: collectCells b min_x min_y steps_x steps_y fuel s'

/-- `CountryBoundaries::cells` from `lib.rs`: compute the column/row cell
ranges of the bounding box (each longitude edge normalized separately),
let the column count wrap modulo the width when `min_x > max_x`, and run
the `from_fn` iterator from the fresh state `(0, 0)`. The iterator yields
exactly `(steps_x + 1) * (steps_y + 1)` cells, which is passed as fuel. -/
def CountryBoundaries.cells (b : CountryBoundaries) (bounds : BoundingBox) : List Cell :=
  let normalized_min_longitude := normalizeWrap bounds.min_longitude (-180) 360
  let normalized_max_longitude := normalizeWrap bounds.max_longitude (-180) 360
  let min_x := b.longitude_to_cell_x normalized_min_longitude
  let max_y := b.latitude_to_cell_y bounds.min_latitude
  let max_x := b.longitude_to_cell_x normalized_max_longitude
  let min_y := b.latitude_to_cell_y bounds.max_latitude
  let steps_y := max_y - min_y
  let steps_x := if max_x < min_x then b.raster_width - min_x + max_x else max_x - min_x
  collectCells b min_x min_y steps_x steps_y ((steps_x + 1) * (steps_y + 1)) ⟨0, 0⟩

/-- `CountryBoundaries::containing_ids` from `lib.rs`: seed the id set
from the first visited cell's `containing_ids`, then retain only the ids
present in every later visited cell's `containing_ids` (the `HashSet` is
modelled as the seed list filtered in place, which preserves membership). -/
def CountryBoundaries.containing_ids (b : CountryBoundaries) (bounds : BoundingBox) : List String :=
  match b.cells bounds with
  | [] => []
  | first :: rest =>
    rest.foldl
      (fun ids cell => ids.filter (fun id => cell.containing_ids.contains id))
      first.containing_ids

/-- `CountryBoundaries::intersecting_ids` from `lib.rs`: the union over
the visited cells of `get_all_ids` (the `HashSet` union is modelled as
concatenation, which preserves membership). -/
def CountryBoundaries.intersecting_ids (b : CountryBoundaries) (bounds : BoundingBox) : List String :=
  (b.cells bounds).foldl (fun ids cell => ids ++ cell.get_all_ids) []

/-- Modelled from the spec, section 4.1 and section 3 (`Point`), as the
claim states the local-coordinate mapping: linearly interpolate the
longitude's offset from the chosen cell's west edge so that 0 is the west
edge and 65536 would be the next cell's edge, then floor. -/
def localXSpec (w cell_x : ℕ) (lon : ℚ) : ℤ :=
  let west : ℚ := -180 + 360 * (cell_x : ℚ) / (w : ℚ)
  let cell_width : ℚ := 360 / (w : ℚ)
  ⌊(lon - west) / cell_width * 65536⌋

/-- Modelled from the spec, section 4.4 (cell enumeration), as the claim
states it: the cells of the (possibly wrapped) rectangle in row-major
order — whole rows (y fixed, x varying) one after the other. -/
def cellsSpecRowMajor (b : CountryBoundaries) (bounds : BoundingBox) : List Cell :=
  let min_x := b.longitude_to_cell_x (normalizeWrap bounds.min_longitude (-180) 360)
  let max_x := b.longitude_to_cell_x (normalizeWrap bounds.max_longitude (-180) 360)
  let min_y := b.latitude_to_cell_y bounds.max_latitude
  let max_y := b.latitude_to_cell_y bounds.min_latitude
  let steps_x := if max_x < min_x then b.raster_width - min_x + max_x else max_x - min_x
  let steps_y := max_y - min_y
  ((List.range (steps_y + 1)).map (fun y_step =>
    (List.range (steps_x + 1)).map (fun x_step =>
      cellRefAt b min_x min_y x_step y_step))).flatten

/-- Modelled from the spec, section 4.4 (cell enumeration), as amended:
the same ranges, but in column-major order — whole columns (x fixed,
y varying north to south) one after the other, moving east, exactly the
order of the nested loops behind the `from_fn` closure in `lib.rs`. -/
def cellsSpecColMajor (b : CountryBoundaries) (bounds : BoundingBox) : List Cell :=
  let min_x := b.longitude_to_cell_x (normalizeWrap bounds.min_longitude (-180) 360)
  let max_x := b.longitude_to_cell_x (normalizeWrap bounds.max_longitude (-180) 360)
  let min_y := b.latitude_to_cell_y bounds.max_latitude
  let max_y := b.latitude_to_cell_y bounds.min_latitude
  let steps_x := if max_x < min_x then b.raster_width - min_x + max_x else max_x - min_x
  let steps_y := max_y - min_y
  ((List.range (steps_x + 1)).map (fun x_step =>
    (List.range (steps_y + 1)).map (fun y_step =>
      cellRefAt b min_x min_y x_step y_step))).flatten

/-- The square test ring of `cell/multipolygon.rs`. -/
def bigSquare : List Point := [⟨0, 0⟩, ⟨0, 10⟩, ⟨10, 10⟩, ⟨10, 0⟩]

/-- The hole test ring of `cell/multipolygon.rs`. -/
def holeSquare : List Point := [⟨2, 2⟩, ⟨2, 8⟩, ⟨8, 8⟩, ⟨8, 2⟩]

/-- The nested inner test ring of `cell/multipolygon.rs`. -/
def smallSquare : List Point := [⟨4, 4⟩, ⟨4, 6⟩, ⟨6, 6⟩, ⟨6, 4⟩]

/-- A raster cell fully covered by the single region `A` (as in the tests
of `lib.rs`). -/
def cellA : Cell := ⟨["A"], []⟩

/-- A raster cell fully covered by the single region `B`. -/
def cellB : Cell := ⟨["B"], []⟩

/-- A raster cell fully covered by the single region `C`. -/
def cellC : Cell := ⟨["C"], []⟩

/-- A raster cell fully covered by the single region `D`. -/
def cellD : Cell := ⟨["D"], []⟩

/-- The 2×2 world raster of the tests in `lib.rs`: row 0 (north) holds
`A`, `B`, row 1 (south) holds `C`, `D`; no boundary entries, no sizes. -/
def b2x2 : CountryBoundaries := ⟨[cellA, cellB, cellC, cellD], 2, []⟩

/-- A bounding box spanning the whole world. -/
def worldBox : BoundingBox := ⟨-90, -180, 90, 180⟩

/-- The bounding box from latitude/longitude -10 to 10 used by the bbox
tests in `lib.rs`; on `b2x2` it touches all four cells. -/
def box1010 : BoundingBox := ⟨-10, -10, 10, 10⟩

/-- The single-cell raster of the size-sorting test in `lib.rs`: one cell
enumerating `D, B, C, A` with sizes `A:10, B:15, C:100, D:800`. -/
def b1sizes : CountryBoundaries :=
  ⟨[⟨["D", "B", "C", "A"], []⟩], 1, [("A", 10), ("B", 15), ("C", 100), ("D", 800)]⟩

/-- A single-cell world raster (as in the out-of-bounds test of `lib.rs`). -/
def b1x1 : CountryBoundaries := ⟨[cellA], 1, []⟩

/-- A raster whose size matches the shipped 360×180 dataset, used to
instantiate statements about width-360 rasters. -/
def b360 : CountryBoundaries := ⟨List.replicate 64800 (⟨[], []⟩ : Cell), 360, []⟩

/-- A multipolygon all of whose rings are empty. -/
def emptyRingsMp : Multipolygon := ⟨[[]], [[], []]⟩

lemma floorToUsize_eq (q : ℚ) (z : ℤ) (h1 : (z : ℚ) ≤ q) (h2 : q < (z : ℚ) + 1) :
    floorToUsize q = z.toNat := by
  unfold floorToUsize
  rw [Int.floor_eq_iff.mpr ⟨h1, h2⟩]

lemma ceilToUsize_eq (q : ℚ) (z : ℤ) (h1 : (z : ℚ) - 1 < q) (h2 : q ≤ (z : ℚ)) :
    ceilToUsize q = z.toNat := by
  unfold ceilToUsize
  rw [Int.ceil_eq_iff.mpr ⟨h1, h2⟩]

lemma floorToU16_val (q : ℚ) (z : ℤ) (h1 : (z : ℚ) ≤ q) (h2 : q < (z : ℚ) + 1) :
    (floorToU16 q).val = min 65535 z.toNat := by
  show min 65535 ⌊q⌋.toNat = min 65535 z.toNat
  rw [Int.floor_eq_iff.mpr ⟨h1, h2⟩]

lemma longitude_to_cell_x_eval (b : CountryBoundaries) (lon : ℚ) (z : ℤ) (n : ℕ)
    (h1 : (z : ℚ) ≤ (b.raster_width : ℚ) * (180 + lon) / 360)
    (h2 : (b.raster_width : ℚ) * (180 + lon) / 360 < (z : ℚ) + 1)
    (h3 : min (b.raster_width - 1) z.toNat = n) :
    b.longitude_to_cell_x lon = n := by
  unfold CountryBoundaries.longitude_to_cell_x
  rw [floorToUsize_eq _ z h1 h2, h3]

lemma latitude_to_cell_y_eval (b : CountryBoundaries) (lat : ℚ) (z : ℤ) (n : ℕ)
    (h1 : (z : ℚ) - 1 < (b.raster.length : ℚ) / (b.raster_width : ℚ) * (90 - lat) / 180)
    (h2 : (b.raster.length : ℚ) / (b.raster_width : ℚ) * (90 - lat) / 180 ≤ (z : ℚ))
    (h3 : z.toNat - 1 = n) :
    b.latitude_to_cell_y lat = n := by
  simp only [CountryBoundaries.latitude_to_cell_y]
  rw [ceilToUsize_eq _ z h1 h2, h3]

lemma rustRem_small (v b : ℚ) (hb : 0 < b) (h1 : -b < v) (h2 : v < b) : rustRem v b = v := by
  have hdiv1 : (-1 : ℚ) < v / b := by rw [lt_div_iff₀ hb]; linarith
  have hdiv2 : v / b < 1 := by rw [div_lt_iff₀ hb]; linarith
  unfold rustRem
  rcases lt_or_le (v / b) 0 with h | h
  · have hc : (⌈v / b⌉ : ℤ) = 0 :=
      Int.ceil_eq_iff.mpr ⟨by push_cast; linarith, by push_cast; linarith⟩
    rw [if_pos h, hc]
    push_cast
    ring
  · have hf : (⌊v / b⌋ : ℤ) = 0 :=
      Int.floor_eq_iff.mpr ⟨by push_cast; linarith, by push_cast; linarith⟩
    rw [if_neg (not_lt.mpr h), hf]
    push_cast
    ring

lemma normalizeWrap_small (v : ℚ) (h1 : -180 ≤ v) (h2 : v < 180) :
    normalizeWrap v (-180) 360 = v := by
  simp only [normalizeWrap]
  rw [rustRem_small v 360 (by norm_num) (by linarith) (by linarith)]
  rw [if_neg (by linarith), if_neg (by intro h; norm_num at h; linarith)]

lemma normalizeWrap_hi : normalizeWrap 180 (-180) 360 = -180 := by
  simp only [normalizeWrap]
  rw [rustRem_small 180 360 (by norm_num) (by norm_num) (by norm_num)]
  norm_num

lemma cells_eval (b : CountryBoundaries) (bounds : BoundingBox) (min_x max_x min_y max_y : ℕ)
    (hminx : b.longitude_to_cell_x (normalizeWrap bounds.min_longitude (-180) 360) = min_x)
    (hmaxx : b.longitude_to_cell_x (normalizeWrap bounds.max_longitude (-180) 360) = max_x)
    (hminy : b.latitude_to_cell_y bounds.max_latitude = min_y)
    (hmaxy : b.latitude_to_cell_y bounds.min_latitude = max_y) :
    b.cells bounds =
      collectCells b min_x min_y
        (if max_x < min_x then b.raster_width - min_x + max_x else max_x - min_x)
        (max_y - min_y)
        (((if max_x < min_x then b.raster_width - min_x + max_x else max_x - min_x) + 1)
          * ((max_y - min_y) + 1)) ⟨0, 0⟩ := by
  simp only [CountryBoundaries.cells]
  rw [hminx, hmaxx, hminy, hmaxy]

lemma b2x2_cells_world : b2x2.cells worldBox = [cellA, cellC] := by
  rw [cells_eval b2x2 worldBox 0 0 0 1
    (by rw [show worldBox.min_longitude = -180 from rfl,
          normalizeWrap_small (-180) (by norm_num) (by norm_num)]
        exact longitude_to_cell_x_eval b2x2 (-180) 0 0
          (by norm_num [b2x2]) (by norm_num [b2x2]) (by decide))
    (by rw [show worldBox.max_longitude = 180 from rfl, normalizeWrap_hi]
        exact longitude_to_cell_x_eval b2x2 (-180) 0 0
          (by norm_num [b2x2]) (by norm_num [b2x2]) (by decide))
    (latitude_to_cell_y_eval b2x2 90 0 0
      (by norm_num [b2x2, cellA, cellB, cellC, cellD])
      (by norm_num [b2x2, cellA, cellB, cellC, cellD]) (by decide))
    (latitude_to_cell_y_eval b2x2 (-90) 2 1
      (by norm_num [b2x2, cellA, cellB, cellC, cellD])
      (by norm_num [b2x2, cellA, cellB, cellC, cellD]) (by decide))]
  decide

lemma b2x2_cells_box1010 : b2x2.cells box1010 = [cellA, cellC, cellB, cellD] := by
  rw [cells_eval b2x2 box1010 0 1 0 1
    (by rw [show box1010.min_longitude = -10 from rfl,
          normalizeWrap_small (-10) (by norm_num) (by norm_num)]
        exact longitude_to_cell_x_eval b2x2 (-10) 0 0
          (by norm_num [b2x2]) (by norm_num [b2x2]) (by decide))
    (by rw [show box1010.max_longitude = 10 from rfl,
          normalizeWrap_small 10 (by norm_num) (by norm_num)]
        exact longitude_to_cell_x_eval b2x2 10 1 1
          (by norm_num [b2x2]) (by norm_num [b2x2]) (by decide))
    (latitude_to_cell_y_eval b2x2 10 1 0
      (by norm_num [b2x2, cellA, cellB, cellC, cellD])
      (by norm_num [b2x2, cellA, cellB, cellC, cellD]) (by decide))
    (latitude_to_cell_y_eval b2x2 (-10) 2 1
      (by norm_num [b2x2, cellA, cellB, cellC, cellD])
      (by norm_num [b2x2, cellA, cellB, cellC, cellD]) (by decide))]
  decide

lemma collectCells_done (b : CountryBoundaries) (mx my sx sy : ℕ) :
    ∀ (fuel : ℕ) (s : IterState), sx < s.x_step →
      collectCells b mx my sx sy fuel s = [] := by
  intro fuel s hs
  cases fuel with
  | zero => rfl
  | succ fuel =>
    simp only [collectCells, cellsStep]
    rcases Nat.lt_or_ge s.y_step sy with h | h
    · rw [if_pos h, if_neg (by omega : ¬(s.x_step ≤ sx ∧ s.y_step ≤ sy))]
    · rw [if_neg (Nat.not_lt.mpr h), if_neg (by omega : ¬(s.x_step ≤ sx ∧ s.y_step ≤ sy))]

lemma collectCells_col (b : CountryBoundaries) (mx my sx sy : ℕ) :
    ∀ (k fuel xs ys : ℕ), xs ≤ sx → ys + k = sy →
      collectCells b mx my sx sy (k + fuel + 1) ⟨xs, ys⟩ =
        ((List.range (k + 1)).map (fun j => cellRefAt b mx my xs (ys + j)))
          ++ collectCells b mx my sx sy fuel ⟨xs + 1, 0⟩ := by
  intro k
  induction k with
  | zero =>
    intro fuel xs ys hx hy
    simp only [collectCells, cellsStep]
    rw [if_neg (by omega : ¬(ys < sy)), if_pos (by exact ⟨hx, by omega⟩ : xs ≤ sx ∧ ys ≤ sy)]
    simp [List.range_succ]
  | succ k ih =>
    intro fuel xs ys hx hy
    have hys : ys < sy := by omega
    have hstep : collectCells b mx my sx sy (k + 1 + fuel + 1) ⟨xs, ys⟩ =
        cellRefAt b mx my xs ys :: collectCells b mx my sx sy (k + fuel + 1) ⟨xs, ys + 1⟩ := by
      have hfuel : k + 1 + fuel + 1 = (k + fuel + 1) + 1 := by omega
      rw [hfuel]
      simp only [collectCells, cellsStep]
      rw [if_pos hys, if_pos (by exact ⟨hx, by omega⟩ : xs ≤ sx ∧ ys ≤ sy)]
    rw [hstep, ih fuel xs (ys + 1) hx (by omega)]
    conv_rhs => rw [show k + 1 + 1 = (k + 1) + 1 from rfl, List.range_succ_eq_map,
      List.map_cons, List.map_map, List.cons_append]
    congr 1
    congr 1
    apply List.map_congr_left
    intro j _
    simp only [Function.comp_apply, Nat.succ_eq_add_one]
    congr 1
    omega

lemma collectCells_cols (b : CountryBoundaries) (mx my sx sy : ℕ) :
    ∀ (m fuel xs : ℕ), xs + m = sx →
      collectCells b mx my sx sy ((m + 1) * (sy + 1) + fuel) ⟨xs, 0⟩ =
        ((List.range (m + 1)).map (fun i =>
          (List.range (sy + 1)).map (fun j => cellRefAt b mx my (xs + i) j))).flatten
          ++ collectCells b mx my sx sy fuel ⟨sx + 1, 0⟩ := by
  intro m
  induction m with
  | zero =>
    intro fuel xs hx
    have h1 : (0 + 1) * (sy + 1) + fuel = sy + fuel + 1 := by ring_nf
    rw [h1, collectCells_col b mx my sx sy sy fuel xs 0 (by omega) (by omega)]
    have h2 : xs + 1 = sx + 1 := by omega
    rw [h2]
    simp [List.range_succ]
  | succ m ih =>
    intro fuel xs hx
    have h1 : (m + 1 + 1) * (sy + 1) + fuel = sy + ((m + 1) * (sy + 1) + fuel) + 1 := by ring_nf
    rw [h1, collectCells_col b mx my sx sy sy ((m + 1) * (sy + 1) + fuel) xs 0 (by omega) (by omega)]
    rw [ih fuel (xs + 1) (by omega)]
    conv_rhs => rw [List.range_succ_eq_map (m + 1), List.map_cons, List.map_map,
      List.flatten_cons]
    rw [← List.append_assoc]
    congr 1
    congr 1
    · apply List.map_congr_left
      intro j _
      show cellRefAt b mx my xs (0 + j) = cellRefAt b mx my (xs + 0) j
      rw [Nat.zero_add, Nat.add_zero]
    · congr 1
      apply List.map_congr_left
      intro i _
      simp only [Function.comp_apply, Nat.succ_eq_add_one]
      apply List.map_congr_left
      intro j _
      show cellRefAt b mx my (xs + 1 + i) j = cellRefAt b mx my (xs + (i + 1)) j
      rw [show xs + (i + 1) = xs + 1 + i from by omega]

lemma cells_eq_colMajor_aux (b : CountryBoundaries) (mx my sx sy : ℕ) :
    collectCells b mx my sx sy ((sx + 1) * (sy + 1)) ⟨0, 0⟩ =
      ((List.range (sx + 1)).map (fun i =>
        (List.range (sy + 1)).map (fun j => cellRefAt b mx my i j))).flatten := by
  have h := collectCells_cols b mx my sx sy sx 0 0 (by omega)
  rw [Nat.add_zero] at h
  rw [h, collectCells_done b mx my sx sy 0 ⟨sx + 1, 0⟩ (Nat.lt_succ_self sx), List.append_nil]
  congr 1
  apply List.map_congr_left
  intro i _
  rw [Nat.zero_add]

lemma cellsSpecRowMajor_eval (b : CountryBoundaries) (bounds : BoundingBox)
    (min_x max_x min_y max_y : ℕ)
    (hminx : b.longitude_to_cell_x (normalizeWrap bounds.min_longitude (-180) 360) = min_x)
    (hmaxx : b.longitude_to_cell_x (normalizeWrap bounds.max_longitude (-180) 360) = max_x)
    (hminy : b.latitude_to_cell_y bounds.max_latitude = min_y)
    (hmaxy : b.latitude_to_cell_y bounds.min_latitude = max_y) :
    cellsSpecRowMajor b bounds =
      ((List.range ((max_y - min_y) + 1)).map (fun y_step =>
        (List.range ((if max_x < min_x then b.raster_width - min_x + max_x
          else max_x - min_x) + 1)).map (fun x_step =>
          cellRefAt b min_x min_y x_step y_step))).flatten := by
  simp only [cellsSpecRowMajor]
  rw [hminx, hmaxx, hminy, hmaxy]

lemma foldl_insides_add (p : Point) (l : List (List Point)) (z : ℤ) :
    l.foldl (fun acc area => if is_point_in_polygon p area then acc + 1 else acc) z
      = z + (l.countP (fun area => is_point_in_polygon p area) : ℤ) := by
  induction l generalizing z with
  | nil => simp
  | cons a t ih =>
    rw [List.foldl_cons, List.countP_cons, ih]
    by_cases h : is_point_in_polygon p a <;> simp [h] <;> ring

lemma foldl_insides_sub (p : Point) (l : List (List Point)) (z : ℤ) :
    l.foldl (fun acc area => if is_point_in_polygon p area then acc - 1 else acc) z
      = z - (l.countP (fun area => is_point_in_polygon p area) : ℤ) := by
  induction l generalizing z with
  | nil => simp
  | cons a t ih =>
    rw [List.foldl_cons, List.countP_cons, ih]
    by_cases h : is_point_in_polygon p a <;> simp [h] <;> ring

lemma covers_iff_signed_sum (mp : Multipolygon) (p : Point) :
    mp.covers p = true ↔
      0 < (mp.outer.countP (fun area => is_point_in_polygon p area) : ℤ)
            - (mp.inner.countP (fun area => is_point_in_polygon p area) : ℤ) := by
  simp only [Multipolygon.covers, foldl_insides_add, foldl_insides_sub, zero_add]
  constructor
  · exact of_decide_eq_true
  · exact decide_eq_true

lemma wrap64_id (z : ℤ) (h1 : -(2 ^ 63) ≤ z) (h2 : z < 2 ^ 63) : wrap64 z = z := by
  unfold wrap64
  rw [Int.emod_eq_of_lt (by omega) (by omega)]
  omega

lemma is_left_i64_eq (p0 p1 p : Point) : is_left_i64 p0 p1 p = is_left p0 p1 p := by
  have bx0 : (p0.x.val : ℤ) < 65536 := by exact_mod_cast p0.x.isLt
  have bx1 : (p1.x.val : ℤ) < 65536 := by exact_mod_cast p1.x.isLt
  have bx : (p.x.val : ℤ) < 65536 := by exact_mod_cast p.x.isLt
  have by0 : (p0.y.val : ℤ) < 65536 := by exact_mod_cast p0.y.isLt
  have by1 : (p1.y.val : ℤ) < 65536 := by exact_mod_cast p1.y.isLt
  have byp : (p.y.val : ℤ) < 65536 := by exact_mod_cast p.y.isLt
  have nx0 : (0 : ℤ) ≤ (p0.x.val : ℤ) := Int.ofNat_nonneg _
  have nx1 : (0 : ℤ) ≤ (p1.x.val : ℤ) := Int.ofNat_nonneg _
  have nx : (0 : ℤ) ≤ (p.x.val : ℤ) := Int.ofNat_nonneg _
  have ny0 : (0 : ℤ) ≤ (p0.y.val : ℤ) := Int.ofNat_nonneg _
  have ny1 : (0 : ℤ) ≤ (p1.y.val : ℤ) := Int.ofNat_nonneg _
  have ny : (0 : ℤ) ≤ (p.y.val : ℤ) := Int.ofNat_nonneg _
  have hmul : ∀ a c : ℤ, -65535 ≤ a → a ≤ 65535 → -65535 ≤ c → c ≤ 65535 →
      -4294836225 ≤ a * c ∧ a * c ≤ 4294836225 := by
    intro a c ha1 ha2 hc1 hc2
    constructor <;> nlinarith
  unfold is_left_i64 is_left
  rw [wrap64_id ((p1.x.val : ℤ) - (p0.x.val : ℤ)) (by omega) (by omega),
      wrap64_id ((p.y.val : ℤ) - (p0.y.val : ℤ)) (by omega) (by omega),
      wrap64_id ((p.x.val : ℤ) - (p0.x.val : ℤ)) (by omega) (by omega),
      wrap64_id ((p1.y.val : ℤ) - (p0.y.val : ℤ)) (by omega) (by omega)]
  obtain ⟨ha1, ha2⟩ := hmul ((p1.x.val : ℤ) - (p0.x.val : ℤ)) ((p.y.val : ℤ) - (p0.y.val : ℤ))
    (by omega) (by omega) (by omega) (by omega)
  obtain ⟨hb1, hb2⟩ := hmul ((p.x.val : ℤ) - (p0.x.val : ℤ)) ((p1.y.val : ℤ) - (p0.y.val : ℤ))
    (by omega) (by omega) (by omega) (by omega)
  rw [wrap64_id (((p1.x.val : ℤ) - (p0.x.val : ℤ)) * ((p.y.val : ℤ) - (p0.y.val : ℤ)))
        (by omega) (by omega),
      wrap64_id (((p.x.val : ℤ) - (p0.x.val : ℤ)) * ((p1.y.val : ℤ) - (p0.y.val : ℤ)))
        (by omega) (by omega),
      wrap64_id _ (by omega) (by omega)]

lemma floorToU16_ge (q : ℚ) (h : 65535 ≤ q) : (floorToU16 q).val = 65535 := by
  show min 65535 ⌊q⌋.toNat = 65535
  have h2 : (65535 : ℤ) ≤ ⌊q⌋ := Int.le_floor.mpr (by exact_mod_cast h)
  omega


lemma covers_all_empty (mp : Multipolygon) (p : Point)
    (ho : ∀ r ∈ mp.outer, r = []) (hi : ∀ r ∈ mp.inner, r = []) :
    mp.covers p = false := by
  have h : ∀ l : List (List Point), (∀ r ∈ l, r = []) →
      l.countP (fun area => is_point_in_polygon p area) = 0 := by
    intro l hl
    rw [List.countP_eq_zero]
    intro a ha
    rw [hl a ha]
    exact Bool.false_ne_true
  rw [← Bool.not_eq_true, covers_iff_signed_sum, h mp.outer ho, h mp.inner hi]
  simp

lemma longitude_to_local_x_w360 (b : CountryBoundaries) (h360 : b.raster_width = 360)
    (cx : ℕ) (lon : ℚ) (hlo : (-180 + (cx : ℚ)) ≤ lon) (hhi : lon ≤ (-180 + (cx : ℚ)) + 1) :
    (b.longitude_to_local_x cx lon).val = (⌊(lon - (-180 + (cx : ℚ))) * 65535⌋).toNat := by
  simp only [CountryBoundaries.longitude_to_local_x, h360, Nat.cast_ofNat]
  have hc : (360 : ℚ) * (cx : ℚ) / 360 = (cx : ℚ) := by field_simp
  have hq : (lon - (-180 + 360 * (cx : ℚ) / 360)) * 65535 * 360 / 360
      = (lon - (-180 + (cx : ℚ))) * 65535 := by rw [hc]; field_simp
  rw [hq]
  have hf0 : (0 : ℤ) ≤ ⌊(lon - (-180 + (cx : ℚ))) * 65535⌋ := by
    apply Int.le_floor.mpr
    push_cast
    nlinarith
  have hf1 : ⌊(lon - (-180 + (cx : ℚ))) * 65535⌋ ≤ 65535 := by
    have h1 : ⌊(lon - (-180 + (cx : ℚ))) * 65535⌋ ≤ ⌊(65535 : ℚ)⌋ :=
      Int.floor_le_floor (by nlinarith)
    have h2 : (⌊(65535 : ℚ)⌋ : ℤ) = 65535 := by norm_num
    omega
  show min 65535 _ = _
  omega

lemma latitude_to_local_y_h180 (b : CountryBoundaries) (h360 : b.raster_width = 360)
    (hlen : b.raster.length = 64800) (cy : ℕ) (lat : ℚ)
    (hlo : (90 - ((cy : ℚ) + 1)) ≤ lat) (hhi : lat ≤ (90 - ((cy : ℚ) + 1)) + 1) :
    (b.latitude_to_local_y cy lat).val = (⌊(lat - (90 - ((cy : ℚ) + 1))) * 65535⌋).toNat := by
  simp only [CountryBoundaries.latitude_to_local_y, h360, hlen, Nat.cast_ofNat]
  have hh : (64800 : ℚ) / 360 = 180 := by norm_num
  rw [hh]
  have hc : (180 : ℚ) * ((cy : ℚ) + 1) / 180 = (cy : ℚ) + 1 := by field_simp
  have hq : (lat - (90 - 180 * ((cy : ℚ) + 1) / 180)) * 65535 * 180 / 180
      = (lat - (90 - ((cy : ℚ) + 1))) * 65535 := by rw [hc]; field_simp
  rw [hq]
  have hf0 : (0 : ℤ) ≤ ⌊(lat - (90 - ((cy : ℚ) + 1))) * 65535⌋ := by
    apply Int.le_floor.mpr
    push_cast
    nlinarith
  have hf1 : ⌊(lat - (90 - ((cy : ℚ) + 1))) * 65535⌋ ≤ 65535 := by
    have h1 : ⌊(lat - (90 - ((cy : ℚ) + 1))) * 65535⌋ ≤ ⌊(65535 : ℚ)⌋ :=
      Int.floor_le_floor (by nlinarith)
    have h2 : (⌊(65535 : ℚ)⌋ : ℤ) = 65535 := by norm_num
    omega
  show min 65535 _ = _
  omega

lemma cell_and_local_point_antimeridian (b : CountryBoundaries) (lat : ℚ) :
    b.cell_and_local_point ⟨lat, 180⟩ = b.cell_and_local_point ⟨lat, -180⟩ := by
  simp only [CountryBoundaries.cell_and_local_point]
  rw [normalizeWrap_hi, normalizeWrap_small (-180) (by norm_num) (by norm_num)]

lemma longitude_to_cell_x_le (b : CountryBoundaries) (lon : ℚ) :
    b.longitude_to_cell_x lon ≤ b.raster_width - 1 :=
  Nat.min_le_left _ _

lemma latitude_to_cell_y_le (b : CountryBoundaries) (h w : ℕ) (hw : b.raster_width = w)
    (hl : b.raster.length = h * w) (hw1 : 1 ≤ w) (lat : ℚ) (hlat : -90 ≤ lat) :
    b.latitude_to_cell_y lat ≤ h - 1 := by
  simp only [CountryBoundaries.latitude_to_cell_y, hw, hl]
  have hwq : (0 : ℚ) < (w : ℚ) := by exact_mod_cast hw1
  have hhq : ((h * w : ℕ) : ℚ) / (w : ℚ) = (h : ℚ) := by
    push_cast
    field_simp
  rw [hhq]
  have hle : (h : ℚ) * (90 - lat) / 180 ≤ (h : ℚ) := by
    rw [div_le_iff₀ (by norm_num : (0 : ℚ) < 180)]
    have : (0 : ℚ) ≤ (h : ℚ) := by positivity
    nlinarith
  have hc : (⌈(h : ℚ) * (90 - lat) / 180⌉ : ℤ) ≤ (h : ℤ) := by
    apply Int.ceil_le.mpr
    push_cast
    exact hle
  have := ceilToUsize_eq
  unfold ceilToUsize
  omega

lemma filter_key_orderedInsert (key : String → ℚ) (q : ℚ) (a : String) (l : List String) :
    (l.orderedInsert (fun x y => key x ≤ key y) a).filter (fun x => decide (key x = q)) =
      if key a = q then a :: l.filter (fun x => decide (key x = q))
      else l.filter (fun x => decide (key x = q)) := by
  induction l with
  | nil =>
    simp only [List.orderedInsert_nil, List.filter_cons, List.filter_nil]
    by_cases haq : key a = q <;> simp [haq]
  | cons b t ih =>
    simp only [List.orderedInsert]
    by_cases hab : key a ≤ key b
    · rw [if_pos hab]
      by_cases haq : key a = q <;> simp [List.filter_cons, haq]
    · rw [if_neg hab]
      have hba : key b < key a := lt_of_not_le hab
      rw [List.filter_cons, ih]
      by_cases haq : key a = q
      · have hbq : ¬(key b = q) := by
          intro h
          rw [← haq] at h
          exact hab h.symm.le
        simp [haq, hbq, List.filter_cons]
      · by_cases hbq : key b = q <;> simp [haq, hbq, List.filter_cons]

lemma filter_key_insertionSort (key : String → ℚ) (q : ℚ) (l : List String) :
    (l.insertionSort (fun x y => key x ≤ key y)).filter (fun x => decide (key x = q)) =
      l.filter (fun x => decide (key x = q)) := by
  induction l with
  | nil => rfl
  | cons a t ih =>
    simp only [List.insertionSort]
    rw [filter_key_orderedInsert, List.filter_cons, ih]
    by_cases haq : key a = q <;> simp [haq]

lemma ids_as_insertionSort (b : CountryBoundaries) (pos : LatLon) :
    b.ids pos = ((b.cell_and_local_point pos).1.get_ids
      (b.cell_and_local_point pos).2).insertionSort
        (fun a c => lookupSize b.geometry_sizes a ≤ lookupSize b.geometry_sizes c) := rfl

lemma b1sizes_pair : b1sizes.cell_and_local_point ⟨1, 1⟩ =
    (⟨["D", "B", "C", "A"], []⟩, (⟨⟨65535, by omega⟩, ⟨65535, by omega⟩⟩ : Point)) := by
  simp only [CountryBoundaries.cell_and_local_point]
  rw [normalizeWrap_small 1 (by norm_num) (by norm_num)]
  rw [longitude_to_cell_x_eval b1sizes 1 0 0
    (by norm_num [b1sizes]) (by norm_num [b1sizes]) (by decide)]
  rw [latitude_to_cell_y_eval b1sizes 1 1 0
    (by norm_num [b1sizes]) (by norm_num [b1sizes]) (by decide)]
  have hx : b1sizes.longitude_to_local_x 0 1 = (⟨65535, by omega⟩ : Fin 65536) := by
    apply Fin.val_injective
    show (b1sizes.longitude_to_local_x 0 1).val = 65535
    simp only [CountryBoundaries.longitude_to_local_x]
    apply floorToU16_ge
    norm_num [b1sizes]
  have hy : b1sizes.latitude_to_local_y 0 1 = (⟨65535, by omega⟩ : Fin 65536) := by
    apply Fin.val_injective
    show (b1sizes.latitude_to_local_y 0 1).val = 65535
    simp only [CountryBoundaries.latitude_to_local_y]
    apply floorToU16_ge
    norm_num [b1sizes]
  rw [hx, hy]
  decide

/-- Claim C4: `covers` is true iff the signed ring sum (+1 per outer ring
containing the point, -1 per inner ring containing it) is strictly
positive; concretely, the point (5,5) inside the big square but inside its
hole is not covered, and with a further ring nested in the hole listed as
a second outer ring it is covered again. -/
theorem covers_signed_sum_claim :
    (∀ (mp : Multipolygon) (p : Point),
      mp.covers p = true ↔
        0 < (mp.outer.countP (fun area => is_point_in_polygon p area) : ℤ)
              - (mp.inner.countP (fun area => is_point_in_polygon p area) : ℤ))
    ∧ Multipolygon.covers ⟨[bigSquare], []⟩ ⟨5, 5⟩ = true
    ∧ Multipolygon.covers ⟨[bigSquare], [holeSquare]⟩ ⟨5, 5⟩ = false
    ∧ Multipolygon.covers ⟨[bigSquare, smallSquare], [holeSquare]⟩ ⟨5, 5⟩ = true :=
  ⟨covers_iff_signed_sum, by decide, by decide, by decide⟩

/-- Claim C5: for the square ring (0,0),(0,10),(10,10),(10,0), the winding
number test counts the points (0,0), (5,0), (0,5) on the lower/left edges
as inside, and the points (0,10), (10,0), (10,10), (5,10), (10,5) on the
upper/right edges as outside. -/
theorem boundary_rule_claim :
    is_point_in_polygon ⟨0, 0⟩ bigSquare = true
    ∧ is_point_in_polygon ⟨5, 0⟩ bigSquare = true
    ∧ is_point_in_polygon ⟨0, 5⟩ bigSquare = true
    ∧ is_point_in_polygon ⟨0, 10⟩ bigSquare = false
    ∧ is_point_in_polygon ⟨10, 0⟩ bigSquare = false
    ∧ is_point_in_polygon ⟨10, 10⟩ bigSquare = false
    ∧ is_point_in_polygon ⟨5, 10⟩ bigSquare = false
    ∧ is_point_in_polygon ⟨10, 5⟩ bigSquare = false := by
  decide

/-- Claim C9: on 16-bit inputs the cross product computed in wrapping
64-bit signed arithmetic equals the exact mathematical cross product (no
overflow), even though a single product term can exceed the signed 32-bit
range. -/
theorem is_left_exact_claim :
    (∀ p0 p1 p : Point, is_left_i64 p0 p1 p = is_left p0 p1 p)
    ∧ (∃ p0 p1 p : Point,
        2 ^ 31 < ((p1.x.val : ℤ) - (p0.x.val : ℤ)) * ((p.y.val : ℤ) - (p0.y.val : ℤ))) :=
  ⟨is_left_i64_eq,
   ⟨⟨0, 0⟩, ⟨⟨65535, by omega⟩, 0⟩, ⟨0, ⟨65535, by omega⟩⟩, by decide⟩⟩

/-- Claim C10: the winding number test on an empty vertex list returns
false (the loop over `0 .. 0` runs zero times, the saturating `len - 1`
index is never used), so `covers` ignores empty rings and a multipolygon
all of whose rings are empty covers no point. -/
theorem empty_rings_claim :
    (∀ p : Point, is_point_in_polygon p [] = false)
    ∧ (∀ (mp : Multipolygon) (p : Point),
        (∀ r ∈ mp.outer, r = []) → (∀ r ∈ mp.inner, r = []) → mp.covers p = false) :=
  ⟨fun _ => rfl, covers_all_empty⟩

/-- Witness for C10 at a concrete multipolygon with one empty outer ring
and two empty inner rings. -/
theorem empty_rings_claim_witness :
    is_point_in_polygon ⟨3, 4⟩ [] = false ∧ emptyRingsMp.covers ⟨3, 4⟩ = false :=
  ⟨empty_rings_claim.1 ⟨3, 4⟩,
   empty_rings_claim.2 emptyRingsMp ⟨3, 4⟩ (by decide) (by decide)⟩

/-- Counterexample to claim C1 as stated: on a raster of width 2, for cell
0 and longitude -90 (the cell's midpoint), the code returns 65535 (the
scaled value saturates the `u16` cast) while the claimed interpolation
with 65536 at the next cell's edge floors to 32768. -/
theorem local_interpolation_counterexample :
    (b2x2.longitude_to_local_x 0 (-90)).val = 65535
    ∧ localXSpec 2 0 (-90) = 32768
    ∧ (b2x2.longitude_to_local_x 0 (-90)).val ≠ (localXSpec 2 0 (-90)).toNat := by
  have h1 : (b2x2.longitude_to_local_x 0 (-90)).val = 65535 := by
    simp only [CountryBoundaries.longitude_to_local_x]
    apply floorToU16_ge
    norm_num [b2x2]
  have h2 : localXSpec 2 0 (-90) = 32768 := by
    simp only [localXSpec]
    norm_num
  refine ⟨h1, h2, ?_⟩
  rw [h1, h2]
  decide

/-- Claim C1 (amended): restricted to rasters of width 360 and height 180
(the shipped dataset geometry), `longitude_to_local_x` and
`latitude_to_local_y` linearly interpolate the coordinate's offset from
the chosen cell's west (resp. south) edge and floor (never round) to an
unsigned 16-bit integer, with 65535 — not 65536 — corresponding to the
next cell's edge: for a longitude within cell `cx` the local x is
`floor((lon - west) * 65535)`, 0 at the west edge and 65535 at the next
cell's edge, and symmetrically for latitude. -/
theorem local_interpolation_amended (b : CountryBoundaries)
    (h360 : b.raster_width = 360) (hlen : b.raster.length = 64800) :
    (∀ (cx : ℕ) (lon : ℚ), (-180 + (cx : ℚ)) ≤ lon → lon ≤ (-180 + (cx : ℚ)) + 1 →
       (b.longitude_to_local_x cx lon).val = (⌊(lon - (-180 + (cx : ℚ))) * 65535⌋).toNat)
    ∧ (∀ cx : ℕ, (b.longitude_to_local_x cx (-180 + (cx : ℚ))).val = 0)
    ∧ (∀ cx : ℕ, (b.longitude_to_local_x cx ((-180 + (cx : ℚ)) + 1)).val = 65535)
    ∧ (∀ (cy : ℕ) (lat : ℚ), (90 - ((cy : ℚ) + 1)) ≤ lat → lat ≤ (90 - ((cy : ℚ) + 1)) + 1 →
       (b.latitude_to_local_y cy lat).val = (⌊(lat - (90 - ((cy : ℚ) + 1))) * 65535⌋).toNat) := by
  refine ⟨fun cx lon hlo hhi => longitude_to_local_x_w360 b h360 cx lon hlo hhi,
    fun cx => ?_, fun cx => ?_,
    fun cy lat hlo hhi => latitude_to_local_y_h180 b h360 hlen cy lat hlo hhi⟩
  · rw [longitude_to_local_x_w360 b h360 cx (-180 + (cx : ℚ)) le_rfl (by linarith)]
    norm_num
  · rw [longitude_to_local_x_w360 b h360 cx ((-180 + (cx : ℚ)) + 1) (by linarith) le_rfl]
    norm_num
    decide

/-- Witness for the amended C1 on the 360×180-sized raster: half a cell
east of cell 0's west edge the local x is 32767 (= floor(0.5 * 65535)). -/
theorem local_interpolation_amended_witness :
    (b360.longitude_to_local_x 0 (-179.5)).val = 32767 := by
  have h := (local_interpolation_amended b360 rfl
      (by rw [show b360.raster = List.replicate 64800 (⟨[], []⟩ : Cell) from rfl,
            List.length_replicate])).1
    0 (-179.5) (by norm_num) (by norm_num)
  rw [h]
  norm_num
  decide

/-- Counterexample to claim C2 as stated: on the 2×2 single-id raster, the
whole-world box yields `intersecting_ids = {A, C}`, not `{A, B, C, D}` —
`B` is missing because both box edges normalize to longitude -180 and map
to column 0, so only the western column is visited. -/
theorem world_box_counterexample :
    b2x2.intersecting_ids worldBox = ["A", "C"]
    ∧ ¬ "B" ∈ b2x2.intersecting_ids worldBox := by
  have h : b2x2.intersecting_ids worldBox = ["A", "C"] := by
    unfold CountryBoundaries.intersecting_ids
    rw [b2x2_cells_world]
    decide
  refine ⟨h, ?_⟩
  rw [h]
  decide

/-- Claim C2 (amended): on the 2×2 raster with single-id cells A,B,C,D and
the whole-world bounding box, `intersecting_ids` is the set {A, C} (both
normalized box edges fall in column 0, so only the cells A and C are
visited) and `containing_ids` is empty. -/
theorem world_box_claim :
    (∀ id : String, id ∈ b2x2.intersecting_ids worldBox ↔ id = "A" ∨ id = "C")
    ∧ b2x2.containing_ids worldBox = [] := by
  have h : b2x2.intersecting_ids worldBox = ["A", "C"] := by
    unfold CountryBoundaries.intersecting_ids
    rw [b2x2_cells_world]
    decide
  constructor
  · intro id
    rw [h]
    simp
  · unfold CountryBoundaries.containing_ids
    rw [b2x2_cells_world]
    decide

/-- Counterexample to claim C3 as stated: on the 2×2 raster with the box
from (-10,-10) to (10,10) the enumeration yields A, C, B, D (first the
whole western column, then the eastern one), not the row-major A, B, C, D. -/
theorem cells_row_major_counterexample :
    b2x2.cells box1010 = [cellA, cellC, cellB, cellD]
    ∧ b2x2.cells box1010 ≠ cellsSpecRowMajor b2x2 box1010 := by
  refine ⟨b2x2_cells_box1010, ?_⟩
  rw [b2x2_cells_box1010,
    cellsSpecRowMajor_eval b2x2 box1010 0 1 0 1
      (by rw [show box1010.min_longitude = -10 from rfl,
            normalizeWrap_small (-10) (by norm_num) (by norm_num)]
          exact longitude_to_cell_x_eval b2x2 (-10) 0 0
            (by norm_num [b2x2]) (by norm_num [b2x2]) (by decide))
      (by rw [show box1010.max_longitude = 10 from rfl,
            normalizeWrap_small 10 (by norm_num) (by norm_num)]
          exact longitude_to_cell_x_eval b2x2 10 1 1
            (by norm_num [b2x2]) (by norm_num [b2x2]) (by decide))
      (latitude_to_cell_y_eval b2x2 10 1 0
        (by norm_num [b2x2, cellA, cellB, cellC, cellD])
        (by norm_num [b2x2, cellA, cellB, cellC, cellD]) (by decide))
      (latitude_to_cell_y_eval b2x2 (-10) 2 1
        (by norm_num [b2x2, cellA, cellB, cellC, cellD])
        (by norm_num [b2x2, cellA, cellB, cellC, cellD]) (by decide))]
  decide

/-- Claim C3 (amended): for every raster and bounding box, the `from_fn`
iterator behind `cells` produces exactly the finite nested-loop
enumeration of the (possibly antimeridian-wrapped) cell rectangle in
column-major order: the column range and row range come from the
section 4.1 mapping (each longitude edge normalized separately), the
column count wraps modulo the width when `min_x > max_x`, the row range
never wraps, and each call starts from the fresh counters (0, 0). -/
theorem cells_enumeration_claim (b : CountryBoundaries) (bounds : BoundingBox) :
    b.cells bounds = cellsSpecColMajor b bounds := by
  simp only [CountryBoundaries.cells, cellsSpecColMajor]
  exact cells_eq_colMajor_aux b _ _ _ _

/-- Claim C6: for a raster of width w ≥ 1 and height h ≥ 1 and any
coordinate with latitude in [-90, 90] and longitude in [-180, 180], the
computed cell column is at most w - 1, the row is at most h - 1, and the
flat index `y * width + x` used by `cell` is within the raster, including
at the exact ±90 and ±180 edges. -/
theorem cell_indices_in_range (b : CountryBoundaries) (h w : ℕ)
    (hw : b.raster_width = w) (hl : b.raster.length = h * w) (hw1 : 1 ≤ w) (hh1 : 1 ≤ h)
    (lat lon : ℚ) (hlat1 : -90 ≤ lat) (hlat2 : lat ≤ 90)
    (hlon1 : -180 ≤ lon) (hlon2 : lon ≤ 180) :
    b.longitude_to_cell_x lon ≤ w - 1 ∧ b.latitude_to_cell_y lat ≤ h - 1 ∧
      b.latitude_to_cell_y lat * b.raster_width + b.longitude_to_cell_x lon
        < b.raster.length := by
  have hx : b.longitude_to_cell_x lon ≤ w - 1 := by
    have := longitude_to_cell_x_le b lon
    omega
  have hy := latitude_to_cell_y_le b h w hw hl hw1 lat hlat1
  refine ⟨hx, hy, ?_⟩
  have hxw : b.longitude_to_cell_x lon < w := by omega
  have hyh : b.latitude_to_cell_y lat < h := by omega
  rw [hw, hl]
  have h1 : (b.latitude_to_cell_y lat + 1) * w ≤ h * w := Nat.mul_le_mul_right w hyh
  have h2 : (b.latitude_to_cell_y lat + 1) * w = b.latitude_to_cell_y lat * w + w := by ring
  omega

/-- Witness for C6: the 1×1 world raster at the south-east corner
(latitude -90, longitude 180). -/
theorem cell_indices_in_range_witness :
    b1x1.longitude_to_cell_x 180 ≤ 0 ∧ b1x1.latitude_to_cell_y (-90) ≤ 0 ∧
      b1x1.latitude_to_cell_y (-90) * b1x1.raster_width + b1x1.longitude_to_cell_x 180
        < b1x1.raster.length :=
  cell_indices_in_range b1x1 1 1 rfl rfl (by norm_num) (by norm_num)
    (-90) 180 (by norm_num) (by norm_num) (by norm_num) (by norm_num)

/-- Claim C7: for every loaded index and latitude in [-90, 90], querying
longitude 180 and longitude -180 resolves to the same cell and the same
local point, so `is_in`, `is_in_any` and `ids` agree at the two
longitudes. -/
theorem antimeridian_claim (b : CountryBoundaries) (lat : ℚ)
    (hlat1 : -90 ≤ lat) (hlat2 : lat ≤ 90) :
    b.cell_and_local_point ⟨lat, 180⟩ = b.cell_and_local_point ⟨lat, -180⟩
    ∧ (∀ id : String, b.is_in ⟨lat, 180⟩ id = b.is_in ⟨lat, -180⟩ id)
    ∧ (∀ ids : List String, b.is_in_any ⟨lat, 180⟩ ids = b.is_in_any ⟨lat, -180⟩ ids)
    ∧ b.ids ⟨lat, 180⟩ = b.ids ⟨lat, -180⟩ := by
  have key := cell_and_local_point_antimeridian b lat
  refine ⟨key, fun id => ?_, fun ids => ?_, ?_⟩
  · simp only [CountryBoundaries.is_in, key]
  · simp only [CountryBoundaries.is_in_any, key]
  · simp only [CountryBoundaries.ids, key]

/-- Witness for C7 on the 2×2 raster at the equator. -/
theorem antimeridian_claim_witness :
    b2x2.is_in ⟨0, 180⟩ "A" = b2x2.is_in ⟨0, -180⟩ "A" :=
  (antimeridian_claim b2x2 0 (by norm_num) (by norm_num)).2.1 "A"

/-- Claim C8: `ids` returns the resolved cell's ids stably sorted
ascending by the size table with default size 0 for unlisted ids: the
output is sorted by size, is a permutation of the cell's enumeration, ids
of equal size keep the cell's enumeration order (the filter at any fixed
size is unchanged — no secondary alphabetic ordering), and the cell
enumerating D, B, C, A with sizes A:10, B:15, C:100, D:800 yields
[A, B, C, D]. -/
theorem ids_sorted_claim :
    (∀ (b : CountryBoundaries) (pos : LatLon),
      List.Sorted (fun a c => lookupSize b.geometry_sizes a ≤ lookupSize b.geometry_sizes c)
        (b.ids pos))
    ∧ (∀ (b : CountryBoundaries) (pos : LatLon),
      (b.ids pos).Perm
        ((b.cell_and_local_point pos).1.get_ids (b.cell_and_local_point pos).2))
    ∧ (∀ (b : CountryBoundaries) (pos : LatLon) (q : ℚ),
      (b.ids pos).filter (fun id => decide (lookupSize b.geometry_sizes id = q)) =
        ((b.cell_and_local_point pos).1.get_ids (b.cell_and_local_point pos).2).filter
          (fun id => decide (lookupSize b.geometry_sizes id = q)))
    ∧ b1sizes.ids ⟨1, 1⟩ = ["A", "B", "C", "D"] := by
  refine ⟨fun b pos => ?_, fun b pos => ?_, fun b pos q => ?_, ?_⟩
  · haveI : IsTotal String
        (fun a c => lookupSize b.geometry_sizes a ≤ lookupSize b.geometry_sizes c) :=
      ⟨fun a c => le_total _ _⟩
    haveI : IsTrans String
        (fun a c => lookupSize b.geometry_sizes a ≤ lookupSize b.geometry_sizes c) :=
      ⟨fun _ _ _ h1 h2 => le_trans h1 h2⟩
    rw [ids_as_insertionSort]
    exact List.sorted_insertionSort _ _
  · rw [ids_as_insertionSort]
    exact List.perm_insertionSort _ _
  · rw [ids_as_insertionSort]
    exact filter_key_insertionSort (fun id => lookupSize b.geometry_sizes id) q _
  · rw [ids_as_insertionSort, b1sizes_pair]
    decide
